import Mathlib

/-!
Shallow embedding of the recipe_optimizer repository.

Text is modelled as `List Char` (one entry per Python character), numbers as
`ℚ` (Python floats on the decimal literals the catalog holds), fallible
Python code as `Except Err`, and the mutable dictionaries that make up the
catalog as entries of an explicit store (`List Record`) addressed by
natural-number references, so that the in-place updates performed by
`find_alternative_components` are visible in the model.

Sources embedded:
  * src/utils/util.py       (DataLoader, AvailabilityParser, RecipeOptimizer)
  * src/src/recipe_price_optimization.py (the standalone pipeline)
  * src/schemas/schema.py   (Component / RecipeRequest validation)
-/

deriving instance DecidableEq for Except

namespace RecipeOpt

/-- Python str.strip strips these whitespace characters from both ends. -/
def isPySpace (c : Char) : Bool :=
  c = ' ' || c = '\t' || c = '\n' || c = '\x0d' || c = '\x0b' || c = '\x0c'

/-- Model of Python str.strip(): drop whitespace from both ends. -/
def pyStrip (l : List Char) : List Char :=
  ((l.dropWhile isPySpace).reverse.dropWhile isPySpace).reverse

/-- Fuel-driven worker for `pyReplace`; the fuel starts at the length of the
input, which is enough because every step consumes at least one character. -/
def pyReplaceAux (old : List Char) : Nat → List Char → List Char
  | 0, l => l
  | _ + 1, [] => []
  | fuel + 1, c :: rest =>
    if old.isPrefixOf (c :: rest) && !old.isEmpty then
      pyReplaceAux old fuel (rest.drop (old.length - 1))
    else
      c :: pyReplaceAux old fuel rest

/-- Model of Python str.replace(old, "") for a non-empty pattern: delete every
(leftmost, non-overlapping) occurrence of `old` from the string. -/
def pyReplace (old l : List Char) : List Char :=
  pyReplaceAux old l.length l

/-- Model of Python str.split(","): split on every comma; the empty string
splits to one empty field. -/
def pySplit : List Char → List (List Char)
  | [] => [[]]
  | c :: rest =>
    if c = ',' then [] :: pySplit rest
    else
      match pySplit rest with
      | [] => [[c]]
      | h :: t => (c :: h) :: t

/-- Numeric value of a digit string read left to right. -/
def evalDigits (l : List Char) : Nat :=
  l.foldl (fun a c => 10 * a + (c.toNat - 48)) 0

/-- Decimal-literal core of Python float(): optional integer part, optional
single dot, optional fractional part, at least one digit in total. -/
def pyFloatCore (l : List Char) : Option ℚ :=
  let ip := l.takeWhile Char.isDigit
  let rest := l.dropWhile Char.isDigit
  match rest with
  | [] => if ip.isEmpty then none else some (evalDigits ip)
  | c :: fp =>
    if c = '.' && fp.all Char.isDigit && !(ip.isEmpty && fp.isEmpty) then
      some ((evalDigits ip : ℚ) + (evalDigits fp : ℚ) / (10 ^ fp.length))
    else none

/-- Model of Python float() on the decimal literals found in the catalog:
surrounding whitespace is stripped, an optional sign is honoured, and the
remainder must be a plain decimal literal (exponents, inf and nan never occur
in this data and are treated as non-numeric). Returns none on non-numeric
content, where Python raises ValueError. -/
def pyFloat (s : List Char) : Option ℚ :=
  match pyStrip s with
  | '-' :: rest => (pyFloatCore rest).map Neg.neg
  | '+' :: rest => pyFloatCore rest
  | t => pyFloatCore t

/-- A raw CSV row as handed to DataLoader.load_data: every field is text. -/
structure RawRow where
  rawMaterialId : List Char
  similarityIndex : List Char
  priceText : List Char
  meltingPointText : List Char
  availabilityText : List Char
deriving DecidableEq

/-- A loaded catalog dictionary. Fields mirror the keys of the row dict after
load_data ran: Price and Melting Point have been converted to numbers, and the
Amount and Cost keys, absent at load time (`none`), appear only when
find_alternative_components writes them. -/
structure Record where
  rawMaterialId : List Char
  similarityIndex : List Char
  price : ℚ
  meltingPoint : ℚ
  availabilityText : List Char
  amount : Option ℚ := none
  cost : Option ℚ := none
deriving DecidableEq

instance : Inhabited Record :=
  ⟨{ rawMaterialId := [], similarityIndex := [], price := 0, meltingPoint := 0,
     availabilityText := [] }⟩

/-- The parsed availability dictionary built by parse_availability:
a "type" tag (string, here `rtype` since `type` is reserved) and a country
list. -/
structure Availability where
  rtype : List Char
  countries : List (List Char)
deriving DecidableEq

/-- The error taxonomy of the embedded code: FileNotFoundError at load,
ValueError on a malformed numeric field (FormatError), ValueError on an
unrecognized availability text (ParseError), the row-context wrapper raised by
filter_data, ValueError on an unknown availability type tag, HTTPException 404
from the selector (NoAlternativeError), and the TypeError raised by the
standalone pipeline when it assigns into a set. -/
inductive Err where
  | notFound : Err
  | format : List Char → Err
  | parse : List Char → Err
  | rowErr : Record → Err → Err
  | availType : List Char → Err
  | noAlternative : List Char → Err
  | typeErr : Err
deriving DecidableEq

/-- Embedding of AvailabilityParser.parse_availability (src/utils/util.py,
lines 49-72; textually identical in recipe_price_optimization.py lines 19-35).
Note the Python code uses str.replace, which deletes every occurrence of the
marker, not only the leading one. -/
def parse_availability (availability_text : List Char) : Except Err Availability :=
  if pyStrip availability_text = "ALL".toList then
    .ok { rtype := "exclude".toList, countries := [] }
  else if ("ALL except".toList).isPrefixOf availability_text then
    .ok { rtype := "exclude".toList,
          countries := (pySplit (pyReplace ("ALL except".toList) availability_text)).map pyStrip }
  else if ("Only".toList).isPrefixOf availability_text then
    .ok { rtype := "include".toList,
          countries := (pySplit (pyReplace ("Only".toList) availability_text)).map pyStrip }
  else
    .error (.parse availability_text)

/-- Embedding of AvailabilityParser.is_available_in_country
(src/utils/util.py, lines 74-94). -/
def is_available_in_country (availability : Availability) (country : List Char) :
    Except Err Bool :=
  if availability.rtype = "exclude".toList then
    .ok (decide (country ∉ availability.countries))
  else if availability.rtype = "include".toList then
    .ok (decide (country ∈ availability.countries))
  else
    .error (.availType availability.rtype)

/-- Parsing of one CSV row inside DataLoader.load_data: Price gets '$'
deleted and whitespace stripped then float-converted, Melting Point is
float-converted directly; the first failure raises ValueError carrying the
offending text (surfaced as the FormatError of the spec). -/
def load_row (row : RawRow) : Except Err Record :=
  match pyFloat (pyStrip (pyReplace ['$'] row.priceText)) with
  | none => .error (.format row.priceText)
  | some p =>
    match pyFloat row.meltingPointText with
    | none => .error (.format row.meltingPointText)
    | some mp =>
      .ok { rawMaterialId := row.rawMaterialId,
            similarityIndex := row.similarityIndex,
            price := p, meltingPoint := mp,
            availabilityText := row.availabilityText }

/-- The row loop of DataLoader.load_data: rows are parsed in order and the
first bad row aborts the whole load. -/
def load_rows : List RawRow → Except Err (List Record)
  | [] => .ok []
  | row :: rest =>
    match load_row row with
    | .error e => .error e
    | .ok rec =>
      match load_rows rest with
      | .error e => .error e
      | .ok recs => .ok (rec :: recs)

/-- Embedding of DataLoader.load_data (src/utils/util.py, lines 13-41). The
data source is `none` when the file does not exist (FileNotFoundError) and
`some rows` when it holds the given rows. -/
def load_data : Option (List RawRow) → Except Err (List Record)
  | none => .error .notFound
  | some rows => load_rows rows

/-- Dictionary lookup through a reference into the store. References produced
by the program are always in range; out-of-range reads return the default
record. -/
def readRef (store : List Record) (r : Nat) : Record :=
  (store[r]?).getD default

/-- Embedding of RecipeOptimizer.filter_data (src/utils/util.py, lines
111-132) over the store: walk the references in order, parse each row's
availability text first (so a malformed row aborts even when its melting
point is too low), then keep the row iff the melting point is at least the
threshold and the parsed rule allows the country. A ValueError is re-raised
wrapped with the offending row. -/
def filter_data (store : List Record) (melting_point : ℚ) (country : List Char) :
    List Nat → Except Err (List Nat)
  | [] => .ok []
  | r :: rs =>
    let row := readRef store r
    match parse_availability row.availabilityText with
    | .error e => .error (.rowErr row e)
    | .ok availability =>
      if melting_point ≤ row.meltingPoint then
        match is_available_in_country availability country with
        | .error e => .error (.rowErr row e)
        | .ok b =>
          match filter_data store melting_point country rs with
          | .error e => .error e
          | .ok rest => .ok (if b then r :: rest else rest)
      else
        match filter_data store melting_point country rs with
        | .error e => .error e
        | .ok rest => .ok rest

/-- A requested component (schemas/schema.py Component; also the shape of the
target dictionaries of the standalone pipeline): a similarity class and a
mass fraction. -/
structure Component where
  similarity_index : List Char
  amount : ℚ
deriving DecidableEq

/-- Python min(alternatives, key=price): scan left to right keeping the first
element whose price is strictly smaller than the best so far, so the first
minimal-price element wins ties. -/
def min_by_price (store : List Record) : Nat → List Nat → Nat
  | best, [] => best
  | best, r :: rs =>
    if (readRef store r).price < (readRef store best).price then
      min_by_price store r rs
    else
      min_by_price store best rs

/-- Embedding of RecipeOptimizer.find_alternative_components
(src/utils/util.py, lines 134-159). `dataRefs` is the list object the method
iterates (self.data). For each target in order: filter the references whose
record has the target's similarity index, fail with HTTPException 404 naming
the index when none match, otherwise pick the cheapest record, write its
Amount and Cost keys in place, and append the same reference to the output
recipe. -/
def find_alternative_components (dataRefs : List Nat) :
    List Component → List Record → Except Err (List Record × List Nat)
  | [], store => .ok (store, [])
  | t :: ts, store =>
    match dataRefs.filter
        (fun r => decide ((readRef store r).similarityIndex = t.similarity_index)) with
    | [] => .error (.noAlternative t.similarity_index)
    | a :: rest =>
      let ch := min_by_price store a rest
      let row := readRef store ch
      let store1 := store.set ch
        { row with amount := some t.amount, cost := some (row.price * t.amount) }
      match find_alternative_components dataRefs ts store1 with
      | .error e => .error e
      | .ok (s2, refs) => .ok (s2, ch :: refs)

/-- Embedding of find_alternative_components of the standalone pipeline
(src/src/recipe_price_optimization.py, lines 90-104). When no alternative
matches, the code builds a set comprehension and then executes
cheapest[amountKey] = target[amountKey], which raises TypeError because item
assignment is not supported on a set; that crash is modelled as Err.typeErr. -/
def find_alternative_components_rpo (dataRefs : List Nat) :
    List Component → List Record → Except Err (List Record × List Nat)
  | [], store => .ok (store, [])
  | t :: ts, store =>
    match dataRefs.filter
        (fun r => decide ((readRef store r).similarityIndex = t.similarity_index)) with
    | [] => .error .typeErr
    | a :: rest =>
      let ch := min_by_price store a rest
      let row := readRef store ch
      let store1 := store.set ch
        { row with amount := some t.amount, cost := some (row.price * t.amount) }
      match find_alternative_components_rpo dataRefs ts store1 with
      | .error e => .error e
      | .ok (s2, refs) => .ok (s2, ch :: refs)

/-- Per-component validation of schemas/schema.py (Field gt=0 le=1 together
with the validate_amount validator, which enforce the same bounds). -/
def validate_amount (a : ℚ) : Bool :=
  decide (0 < a) && decide (a ≤ 1)

/-- The validate_total_amount validator of RecipeRequest: the amounts must
sum to 1 within the 0.99 .. 1.01 margin. -/
def validate_total_amount (components : List Component) : Bool :=
  let total := (components.map Component.amount).sum
  decide (99 / 100 ≤ total) && decide (total ≤ 101 / 100)

/-- A request's component list passes pydantic validation iff every component
passes its own validator and the total-amount validator accepts the list. -/
def validate_request (components : List Component) : Bool :=
  components.all (fun c => validate_amount c.amount) && validate_total_amount components

/-- The keep-condition of filter_data as a boolean on one reference: the
availability text parses, the melting point is at least the threshold and the
parsed rule allows the country. On a success of filter_data the output is
exactly the input filtered by this predicate. -/
def keep_row (store : List Record) (m : ℚ) (c : List Char) (r : Nat) : Bool :=
  match parse_availability (readRef store r).availabilityText with
  | .error _ => false
  | .ok availability =>
    decide (m ≤ (readRef store r).meltingPoint) &&
      match is_available_in_country availability c with
      | .error _ => false
      | .ok b => b

/-- Two records agree on every field that load_data wrote: everything except
the Amount and Cost keys that the selector writes later. -/
def same_core (a b : Record) : Prop :=
  a.rawMaterialId = b.rawMaterialId ∧ a.similarityIndex = b.similarityIndex ∧
  a.price = b.price ∧ a.meltingPoint = b.meltingPoint ∧
  a.availabilityText = b.availabilityText

/-- Written to the spec's words, for comparison with parse_availability: the
country list the spec describes, namely the comma-split, trimmed remainder of
the input after its marker ("ALL except" or "Only"). The code instead deletes
every occurrence of the marker anywhere in the input, so the two disagree on
inputs that contain the marker beyond the leading position. -/
def split_trim_remainder (marker t : List Char) : List (List Char) :=
  (pySplit (t.drop marker.length)).map pyStrip

/-- Catalog record for the concrete runs below: class 54, cheap but with a
melting point below the 200 threshold. -/
def c1_cheap_low_mp : Record :=
  { rawMaterialId := "R1".toList, similarityIndex := "54".toList, price := 1,
    meltingPoint := 100, availabilityText := "ALL".toList }

/-- Catalog record: class 54, more expensive, melting point above the
threshold. -/
def c1_costly_high_mp : Record :=
  { rawMaterialId := "R2".toList, similarityIndex := "54".toList, price := 2,
    meltingPoint := 300, availabilityText := "ALL".toList }

/-- A two-record loaded catalog in which only the second record survives the
melting-point filter. -/
def c1_store : List Record := [c1_cheap_low_mp, c1_costly_high_mp]

/-- A single admissible record of class 54, used to exhibit the in-place
update performed by the selector. -/
def c3_rec : Record :=
  { rawMaterialId := "R1".toList, similarityIndex := "54".toList, price := 1,
    meltingPoint := 300, availabilityText := "ALL".toList }

/-- A record of a different class, untouched by a request for class 54. -/
def c3_other : Record :=
  { rawMaterialId := "R9".toList, similarityIndex := "99".toList, price := 3,
    meltingPoint := 400, availabilityText := "ALL".toList }

/-- Two-record store for the frame-property witness. -/
def c3w_store : List Record := [c3_rec, c3_other]

/-- The store after the selector assigned fraction 1 to the class-54 record. -/
def c3w_res : List Record := [{ c3_rec with amount := some 1, cost := some 1 }, c3_other]

/-- A malformed catalog row: availability text in no recognized format and a
melting point below any positive threshold. -/
def c5_bad_rec : Record :=
  { rawMaterialId := "R7".toList, similarityIndex := "54".toList, price := 5,
    meltingPoint := 100, availabilityText := "sometimes".toList }

/-- A raw CSV row with a well-formed dollar price. -/
def c8_row : RawRow :=
  { rawMaterialId := "R1".toList, similarityIndex := "54".toList,
    priceText := "$3.25".toList, meltingPointText := "500".toList,
    availabilityText := "ALL".toList }

/-- The record load_data produces from c8_row. -/
def c8_rec : Record :=
  { rawMaterialId := "R1".toList, similarityIndex := "54".toList, price := 13 / 4,
    meltingPoint := 500, availabilityText := "ALL".toList }

/-- A raw CSV row whose price field is non-numeric. -/
def c8_bad_row : RawRow :=
  { rawMaterialId := "R2".toList, similarityIndex := "54".toList,
    priceText := "abc".toList, meltingPointText := "500".toList,
    availabilityText := "ALL".toList }

/-- One-record store for the aliasing run: class 54, price 1. -/
def c10_store : List Record := [c3_rec]

/-- The store after two targets of class 54 were resolved: both resolved to
record 0, whose Amount and Cost keys hold the values of the second target. -/
def c10_res : List Record :=
  [{ c3_rec with amount := some (1 / 2), cost := some (1 / 2) }]

end RecipeOpt

namespace RecipeOpt

/-- Reading a reference other than the updated one is unchanged. -/
theorem readRef_set_of_ne {store : List Record} {r i : Nat} (h : ¬ r = i) (v : Record) :
    readRef (store.set r v) i = readRef store i := by
  unfold readRef
  rw [List.getElem?_set_ne h]

/-- Reading an in-range updated reference yields the new record. -/
theorem readRef_set_self {store : List Record} {r : Nat} (h : r < store.length)
    (v : Record) : readRef (store.set r v) r = v := by
  unfold readRef
  rw [List.getElem?_set_self h]
  rfl

/-- Core-field agreement is reflexive. -/
theorem same_core_refl (a : Record) : same_core a a :=
  ⟨rfl, rfl, rfl, rfl, rfl⟩

/-- Core-field agreement is transitive. -/
theorem same_core_trans {a b c : Record} (h1 : same_core a b) (h2 : same_core b c) :
    same_core a c := by
  obtain ⟨x1, x2, x3, x4, x5⟩ := h1
  obtain ⟨y1, y2, y3, y4, y5⟩ := h2
  exact ⟨x1.trans y1, x2.trans y2, x3.trans y3, x4.trans y4, x5.trans y5⟩

/-- The update performed by the selector changes no core field of any record
visible through readRef. -/
theorem same_core_update_read (store : List Record) (r : Nat) (a c : Option ℚ) (i : Nat) :
    same_core (readRef (store.set r { readRef store r with amount := a, cost := c }) i)
      (readRef store i) := by
  by_cases h : r = i
  · subst h
    by_cases hlen : r < store.length
    · rw [readRef_set_self hlen]
      exact ⟨rfl, rfl, rfl, rfl, rfl⟩
    · have hle : store.length ≤ r := Nat.le_of_not_lt hlen
      unfold readRef
      rw [List.getElem?_eq_none (by simpa using hle), List.getElem?_eq_none hle]
      exact same_core_refl _
  · rw [readRef_set_of_ne h]
    exact same_core_refl _

end RecipeOpt

namespace RecipeOpt

/-- Every rule parse_availability returns is tagged exclude or include. -/
theorem parse_ok_rtype {t : List Char} {av : Availability}
    (h : parse_availability t = .ok av) :
    av.rtype = "exclude".toList ∨ av.rtype = "include".toList := by
  unfold parse_availability at h
  split_ifs at h with h1 h2 h3
  · injection h with h
    subst h
    exact Or.inl rfl
  · injection h with h
    subst h
    exact Or.inl rfl
  · injection h with h
    subst h
    exact Or.inr rfl

/-- is_available_in_country never fails on a rule produced by
parse_availability. -/
theorem is_available_of_parsed {t : List Char} {av : Availability}
    (h : parse_availability t = .ok av) (c : List Char) :
    ∃ b, is_available_in_country av c = .ok b := by
  rcases parse_ok_rtype h with hr | hr
  · exact ⟨_, by unfold is_available_in_country; rw [if_pos hr]⟩
  · have hne : ¬ av.rtype = "exclude".toList := by rw [hr]; decide
    exact ⟨_, by unfold is_available_in_country; rw [if_neg hne, if_pos hr]⟩

/-- The boolean keep-condition unfolds to the spec-shaped property. -/
theorem keep_row_iff (store : List Record) (m : ℚ) (c : List Char) (r : Nat) :
    keep_row store m c r = true ↔
      m ≤ (readRef store r).meltingPoint ∧
        ∃ av, parse_availability (readRef store r).availabilityText = .ok av ∧
          is_available_in_country av c = .ok true := by
  unfold keep_row
  cases hp : parse_availability (readRef store r).availabilityText with
  | error e => simp [hp]
  | ok av =>
    cases hb : is_available_in_country av c with
    | error e2 =>
      rcases is_available_of_parsed hp c with ⟨b, hb2⟩
      rw [hb2] at hb
      exact absurd hb (by simp)
    | ok b => simp [hp, hb]

/-- On success, filter_data returns exactly the references passing keep_row,
in order. -/
theorem filter_data_ok_eq {store : List Record} {m : ℚ} {c : List Char} :
    ∀ {refs out : List Nat}, filter_data store m c refs = .ok out →
      out = refs.filter (keep_row store m c) := by
  intro refs
  induction refs with
  | nil =>
    intro out h
    simp only [filter_data, Except.ok.injEq] at h
    simp [← h]
  | cons r rs ih =>
    intro out h
    unfold filter_data at h
    dsimp only at h
    cases hp : parse_availability (readRef store r).availabilityText with
    | error e => rw [hp] at h; exact absurd h (by simp)
    | ok av =>
      rw [hp] at h
      dsimp only at h
      by_cases hm : m ≤ (readRef store r).meltingPoint
      · rw [if_pos hm] at h
        cases hb : is_available_in_country av c with
        | error e2 => rw [hb] at h; exact absurd h (by simp)
        | ok b =>
          rw [hb] at h
          dsimp only at h
          cases hrec : filter_data store m c rs with
          | error e3 => rw [hrec] at h; exact absurd h (by simp)
          | ok rest =>
            rw [hrec] at h
            simp only [Except.ok.injEq] at h
            have hkeep : keep_row store m c r = b := by
              unfold keep_row
              rw [hp]
              dsimp only
              rw [hb]
              simp [hm]
            rw [List.filter_cons, hkeep, ← ih hrec, ← h]
      · rw [if_neg hm] at h
        cases hrec : filter_data store m c rs with
        | error e3 => rw [hrec] at h; exact absurd h (by simp)
        | ok rest =>
          rw [hrec] at h
          dsimp only at h
          simp only [Except.ok.injEq] at h
          have hkeep : keep_row store m c r = false := by
            unfold keep_row
            rw [hp]
            dsimp only
            simp [hm]
          rw [List.filter_cons, hkeep, ← ih hrec, ← h]
          simp

/-- C4: a record appears in the result of filter_data iff its melting point
is at least the threshold and its parsed availability rule allows the
country; the kept references appear in their input order (the output is the
order-preserving filter of the input, hence a sublist, with no deduplication
of similarity classes). -/
theorem filter_data_spec (store : List Record) (m : ℚ) (c : List Char)
    (refs out : List Nat) (hok : filter_data store m c refs = .ok out) :
    out = refs.filter (keep_row store m c) ∧
    out.Sublist refs ∧
    ∀ r, r ∈ out ↔ r ∈ refs ∧ m ≤ (readRef store r).meltingPoint ∧
      ∃ av, parse_availability (readRef store r).availabilityText = .ok av ∧
        is_available_in_country av c = .ok true := by
  have heq := filter_data_ok_eq hok
  refine ⟨heq, ?_, ?_⟩
  · rw [heq]
    exact List.filter_sublist refs
  · intro r
    rw [heq, List.mem_filter, keep_row_iff]

/-- Witness for filter_data_spec: on the two-record catalog only the
second record passes the 200-degree filter for China, and membership in the
output is as the theorem states. -/
theorem filter_data_spec_witness :
    ([1] : List Nat) = [0, 1].filter (keep_row c1_store 200 ("China".toList)) ∧
    List.Sublist [1] [0, 1] ∧
    ∀ r, r ∈ [1] ↔ r ∈ [0, 1] ∧ (200 : ℚ) ≤ (readRef c1_store r).meltingPoint ∧
      ∃ av, parse_availability (readRef c1_store r).availabilityText = .ok av ∧
        is_available_in_country av ("China".toList) = .ok true :=
  filter_data_spec c1_store 200 ("China".toList) [0, 1] [1] (by decide)

/-- C5: when any referenced row has a malformed availability text,
filter_data fails with the row-wrapped parse error, whether or not that row
passes the melting-point test. -/
theorem filter_data_malformed_aborts (store : List Record) (m : ℚ) (c : List Char)
    (refs : List Nat) (r : Nat) (e : Err) (hr : r ∈ refs)
    (hbad : parse_availability (readRef store r).availabilityText = .error e) :
    ∃ row e2, filter_data store m c refs = .error (.rowErr row e2) := by
  induction refs with
  | nil => exact absurd hr (by simp)
  | cons r0 rs ih =>
    cases hp : parse_availability (readRef store r0).availabilityText with
    | error e0 =>
      refine ⟨readRef store r0, e0, ?_⟩
      unfold filter_data
      dsimp only
      rw [hp]
    | ok av =>
      have hne : ¬ r = r0 := by
        intro hrr
        rw [hrr, hp] at hbad
        exact absurd hbad (by simp)
      have hr2 : r ∈ rs := by
        rcases List.mem_cons.mp hr with h | h
        · exact absurd h hne
        · exact h
      rcases ih hr2 with ⟨row, e2, hrec⟩
      refine ⟨row, e2, ?_⟩
      unfold filter_data
      dsimp only
      rw [hp]
      dsimp only
      by_cases hm : m ≤ (readRef store r0).meltingPoint
      · rw [if_pos hm]
        rcases is_available_of_parsed hp c with ⟨b, hb⟩
        rw [hb]
        dsimp only
        rw [hrec]
      · rw [if_neg hm]
        rw [hrec]

/-- Witness for filter_data_malformed_aborts: a single row reading
"sometimes", whose melting point 100 is below the 200 threshold, still aborts
the filter with the wrapped parse error. -/
theorem filter_data_malformed_aborts_witness :
    ∃ row e2, filter_data [c5_bad_rec] 200 ("China".toList) [0] = .error (.rowErr row e2) :=
  filter_data_malformed_aborts [c5_bad_rec] 200 ("China".toList) [0] 0
    (.parse ("sometimes".toList)) (by decide) (by decide)

/-- C6 counterexample: the claim says the country list is the comma-split
trimmed remainder after the marker, but the code deletes every occurrence of
the marker, so on input "Only Onlyland" the code returns the country "land"
while the remainder after "Only" is "Onlyland". -/
theorem parse_availability_remainder_cex :
    parse_availability ("Only Onlyland".toList)
      = .ok { rtype := "include".toList, countries := ["land".toList] } ∧
    split_trim_remainder ("Only".toList) ("Only Onlyland".toList) = ["Onlyland".toList] ∧
    (["land".toList] : List (List Char)) ≠ ["Onlyland".toList] := by
  refine ⟨by decide, by decide, by decide⟩

/-- C6 amended: parse_availability returns ExcludeList of the empty list when
the stripped input equals "ALL"; otherwise, when the raw input starts with
"ALL except" (resp. "Only"), it returns ExcludeList (resp. IncludeList) of
the comma-split trimmed result of deleting every occurrence of that marker
from the input (which is the comma-split trimmed remainder whenever the
marker occurs only as the leading prefix); on every other input it fails with
the ParseError naming the offending text, and it never returns a rule tagged
anything other than exclude or include. -/
theorem parse_availability_cases (t : List Char) :
    (pyStrip t = "ALL".toList →
      parse_availability t = .ok { rtype := "exclude".toList, countries := [] }) ∧
    (¬ pyStrip t = "ALL".toList → ("ALL except".toList).isPrefixOf t = true →
      parse_availability t
        = .ok { rtype := "exclude".toList,
                countries := (pySplit (pyReplace ("ALL except".toList) t)).map pyStrip }) ∧
    (¬ pyStrip t = "ALL".toList → ("ALL except".toList).isPrefixOf t = false →
      ("Only".toList).isPrefixOf t = true →
      parse_availability t
        = .ok { rtype := "include".toList,
                countries := (pySplit (pyReplace ("Only".toList) t)).map pyStrip }) ∧
    (¬ pyStrip t = "ALL".toList → ("ALL except".toList).isPrefixOf t = false →
      ("Only".toList).isPrefixOf t = false →
      parse_availability t = .error (.parse t)) ∧
    (∀ av, parse_availability t = .ok av →
      av.rtype = "exclude".toList ∨ av.rtype = "include".toList) := by
  refine ⟨?_, ?_, ?_, ?_, fun av hav => parse_ok_rtype hav⟩
  · intro h1
    unfold parse_availability
    rw [if_pos h1]
  · intro h1 h2
    unfold parse_availability
    rw [if_neg h1, if_pos h2]
  · intro h1 h2 h3
    unfold parse_availability
    rw [if_neg h1, if_neg (by rw [h2]; decide), if_pos h3]
  · intro h1 h2 h3
    unfold parse_availability
    rw [if_neg h1, if_neg (by rw [h2]; decide), if_neg (by rw [h3]; decide)]

/-- Witness for parse_availability_cases: the "ALL except China, Japan" input
takes the ExcludeList branch, "ALL" takes the available-everywhere branch and
"sometimes" fails. -/
theorem parse_availability_cases_witness :
    parse_availability ("ALL except China, Japan".toList)
      = .ok { rtype := "exclude".toList,
              countries := (pySplit (pyReplace ("ALL except".toList)
                              ("ALL except China, Japan".toList))).map pyStrip } ∧
    parse_availability ("ALL".toList) = .ok { rtype := "exclude".toList, countries := [] } ∧
    parse_availability ("sometimes".toList) = .error (.parse ("sometimes".toList)) :=
  ⟨(parse_availability_cases _).2.1 (by decide) (by decide),
   (parse_availability_cases _).1 (by decide),
   (parse_availability_cases _).2.2.2.1 (by decide) (by decide) (by decide)⟩

/-- C7: a rule produced by the parser is tagged exclude or include; an
exclude rule allows exactly the countries not listed and an include rule
exactly the countries listed, by exact list membership of the country text;
and on "ALL except China, Japan" the rule rejects "China" and allows
"Germany". -/
theorem is_available_semantics (t : List Char) (rule : Availability) (c : List Char)
    (h : parse_availability t = .ok rule) :
    (rule.rtype = "exclude".toList ∨ rule.rtype = "include".toList) ∧
    (rule.rtype = "exclude".toList →
      is_available_in_country rule c = .ok (decide (c ∉ rule.countries))) ∧
    (rule.rtype = "include".toList →
      is_available_in_country rule c = .ok (decide (c ∈ rule.countries))) ∧
    (∃ rB, parse_availability ("ALL except China, Japan".toList) = .ok rB ∧
      is_available_in_country rB ("China".toList) = .ok false ∧
      is_available_in_country rB ("Germany".toList) = .ok true) := by
  refine ⟨parse_ok_rtype h, ?_, ?_, ?_⟩
  · intro hr
    unfold is_available_in_country
    rw [if_pos hr]
  · intro hr
    have hne : ¬ rule.rtype = "exclude".toList := by
      rw [hr]
      decide
    unfold is_available_in_country
    rw [if_neg hne, if_pos hr]
  · exact ⟨{ rtype := "exclude".toList, countries := ["China".toList, "Japan".toList] },
      by decide, by decide, by decide⟩

/-- Witness for is_available_semantics: the IncludeList rule parsed from
"Only Malaysia, Singapore" allows exactly the listed countries. -/
theorem is_available_semantics_witness :
    is_available_in_country
        { rtype := "include".toList, countries := ["Malaysia".toList, "Singapore".toList] }
        ("Thailand".toList)
      = .ok (decide (("Thailand".toList)
          ∈ [("Malaysia".toList), ("Singapore".toList)])) :=
  (is_available_semantics ("Only Malaysia, Singapore".toList)
      { rtype := "include".toList, countries := ["Malaysia".toList, "Singapore".toList] }
      ("Thailand".toList) (by decide)).2.2.1 (by decide)

/-- Any failure of load_row is a FormatError carrying the offending text. -/
theorem load_row_error_format {row : RawRow} {e : Err} (h : load_row row = .error e) :
    ∃ txt, e = .format txt := by
  unfold load_row at h
  cases hp : pyFloat (pyStrip (pyReplace ['$'] row.priceText)) with
  | none =>
    rw [hp] at h
    injection h with h
    exact ⟨row.priceText, h.symm⟩
  | some p =>
    rw [hp] at h
    dsimp only at h
    cases hm : pyFloat row.meltingPointText with
    | none =>
      rw [hm] at h
      injection h with h
      exact ⟨row.meltingPointText, h.symm⟩
    | some mp =>
      rw [hm] at h
      exact absurd h (by simp)

/-- On success, load_rows yields one record per row, in row order, each the
load_row image of the corresponding row. -/
theorem load_rows_ok_spec : ∀ {rows : List RawRow} {recs : List Record},
    load_rows rows = .ok recs →
    recs.length = rows.length ∧
    ∀ i (h1 : i < rows.length) (h2 : i < recs.length),
      load_row (rows.get ⟨i, h1⟩) = .ok (recs.get ⟨i, h2⟩) := by
  intro rows
  induction rows with
  | nil =>
    intro recs h
    simp only [load_rows, Except.ok.injEq] at h
    subst h
    refine ⟨rfl, ?_⟩
    intro i h1 h2
    exact absurd h1 (by simp)
  | cons row rest ih =>
    intro recs h
    unfold load_rows at h
    cases hl : load_row row with
    | error e => rw [hl] at h; exact absurd h (by simp)
    | ok rec =>
      rw [hl] at h
      dsimp only at h
      cases hr : load_rows rest with
      | error e => rw [hr] at h; exact absurd h (by simp)
      | ok recs2 =>
        rw [hr] at h
        injection h with h
        subst h
        obtain ⟨hlen, hnth⟩ := ih hr
        refine ⟨by simp [hlen], ?_⟩
        intro i h1 h2
        cases i with
        | zero => simpa using hl
        | succ n =>
          have h1r : n < rest.length := by simpa using h1
          have h2r : n < recs2.length := by simpa using h2
          simpa using hnth n h1r h2r

/-- A row whose price or melting-point text is non-numeric forces load_rows
to fail with a FormatError. -/
theorem load_rows_bad_row : ∀ {rows : List RawRow} {row : RawRow}, row ∈ rows →
    (pyFloat (pyStrip (pyReplace ['$'] row.priceText)) = none ∨
     pyFloat row.meltingPointText = none) →
    ∃ txt, load_rows rows = .error (.format txt) := by
  intro rows
  induction rows with
  | nil =>
    intro row h
    exact absurd h (by simp)
  | cons r0 rest ih =>
    intro row hmem hbad
    cases hl : load_row r0 with
    | error e =>
      rcases load_row_error_format hl with ⟨txt, he⟩
      refine ⟨txt, ?_⟩
      unfold load_rows
      rw [hl, he]
    | ok rec =>
      have hok0 : ¬ (pyFloat (pyStrip (pyReplace ['$'] r0.priceText)) = none ∨
          pyFloat r0.meltingPointText = none) := by
        intro hc
        unfold load_row at hl
        cases hp : pyFloat (pyStrip (pyReplace ['$'] r0.priceText)) with
        | none => rw [hp] at hl; exact absurd hl (by simp)
        | some p =>
          rw [hp] at hl
          dsimp only at hl
          rcases hc with hc | hc
          · rw [hp] at hc; exact absurd hc (by simp)
          · rw [hc] at hl; exact absurd hl (by simp)
      have hr : row ∈ rest := by
        rcases List.mem_cons.mp hmem with h | h
        · rw [h] at hbad; exact absurd hbad hok0
        · exact h
      rcases ih hr hbad with ⟨txt, hrec⟩
      refine ⟨txt, ?_⟩
      unfold load_rows
      rw [hl]
      dsimp only
      rw [hrec]

/-- C8: load_data fails with NotFoundError on a missing source; on success it
returns one record per row in row order, each parsed by load_row; the price
text before conversion has its dollar signs deleted and whitespace stripped,
so "$3.25" converts to 13/4 while "abc" is non-numeric; and any row with a
non-numeric price or melting-point field makes the whole load fail with a
FormatError. -/
theorem load_data_spec :
    load_data none = .error .notFound ∧
    (∀ rows recs, load_data (some rows) = .ok recs →
      recs.length = rows.length ∧
      ∀ i (h1 : i < rows.length) (h2 : i < recs.length),
        load_row (rows.get ⟨i, h1⟩) = .ok (recs.get ⟨i, h2⟩)) ∧
    pyFloat (pyStrip (pyReplace ['$'] ("$3.25".toList))) = some (13 / 4) ∧
    pyFloat (pyStrip (pyReplace ['$'] ("abc".toList))) = none ∧
    (∀ rows (row : RawRow), row ∈ rows →
      (pyFloat (pyStrip (pyReplace ['$'] row.priceText)) = none ∨
       pyFloat row.meltingPointText = none) →
      ∃ txt, load_data (some rows) = .error (.format txt)) := by
  refine ⟨rfl, ?_, ?_, by decide, ?_⟩
  · intro rows recs h
    exact load_rows_ok_spec h
  · simp +decide [pyFloat, pyFloatCore, pyStrip, pyReplace, pyReplaceAux, evalDigits, isPySpace]
    norm_num
  · intro rows row hmem hbad
    exact load_rows_bad_row hmem hbad

/-- Witness for load_data_spec: a one-row source with price "$3.25" loads to
one record, and a source containing a row with price "abc" fails with a
FormatError. -/
theorem load_data_spec_witness :
    (([c8_rec] : List Record).length = [c8_row].length ∧
      ∀ i (h1 : i < [c8_row].length) (h2 : i < ([c8_rec] : List Record).length),
        load_row (([c8_row] : List RawRow).get ⟨i, h1⟩)
          = .ok (([c8_rec] : List Record).get ⟨i, h2⟩)) ∧
    ∃ txt, load_data (some [c8_bad_row]) = .error (.format txt) :=
  ⟨load_data_spec.2.1 [c8_row] [c8_rec]
      (by
        simp +decide [load_data, load_rows, load_row, c8_row, c8_rec, pyFloat, pyFloatCore,
          pyStrip, pyReplace, pyReplaceAux, evalDigits, isPySpace]
        norm_num),
   load_data_spec.2.2.2.2 [c8_bad_row] c8_bad_row (by decide) (Or.inl (by decide))⟩

/-- C9: pydantic accepts a request exactly when every component fraction lies
in (0, 1] and the fractions sum to 1 within the 0.01 tolerance; a request
violating either condition is rejected by validation, before any selector
code runs. -/
theorem request_validation_iff (components : List Component) :
    validate_request components = true ↔
      ((∀ comp ∈ components, 0 < comp.amount ∧ comp.amount ≤ 1) ∧
       |(components.map Component.amount).sum - 1| ≤ 1 / 100) := by
  unfold validate_request validate_total_amount validate_amount
  simp only [Bool.and_eq_true, List.all_eq_true, decide_eq_true_eq]
  rw [abs_le]
  constructor
  · rintro ⟨hall, h1, h2⟩
    refine ⟨fun comp hc => hall comp hc, ?_, ?_⟩ <;> linarith
  · rintro ⟨hall, h1, h2⟩
    refine ⟨fun comp hc => hall comp hc, ?_, ?_⟩ <;> linarith

/-- Witness for request_validation_iff at a concrete accepted request of one
full-fraction component. -/
theorem request_validation_iff_witness :
    validate_request [{ similarity_index := "54".toList, amount := 1 }] = true ↔
      ((∀ comp ∈ [({ similarity_index := "54".toList, amount := 1 } : Component)],
          0 < comp.amount ∧ comp.amount ≤ 1) ∧
       |(([{ similarity_index := "54".toList, amount := 1 }] : List Component).map
          Component.amount).sum - 1| ≤ 1 / 100) :=
  request_validation_iff [{ similarity_index := "54".toList, amount := 1 }]

/-- The reference Python min returns is one of the candidates. -/
theorem min_by_price_mem (store : List Record) : ∀ (a : Nat) (l : List Nat),
    min_by_price store a l ∈ a :: l := by
  intro a l
  induction l generalizing a with
  | nil => simp [min_by_price]
  | cons r rs ih =>
    unfold min_by_price
    split
    · exact List.mem_cons_of_mem a (ih r)
    · rcases List.mem_cons.mp (ih a) with h | h
      · exact List.mem_cons.mpr (Or.inl h)
      · exact List.mem_cons.mpr (Or.inr (List.mem_cons_of_mem r h))

/-- Python min is determined by the prices alone: two stores that agree on
every price select the same reference. -/
theorem min_by_price_congr {s1 s2 : List Record}
    (h : ∀ x, (readRef s2 x).price = (readRef s1 x).price) :
    ∀ (a : Nat) (l : List Nat), min_by_price s2 a l = min_by_price s1 a l := by
  intro a l
  induction l generalizing a with
  | nil => rfl
  | cons r rs ih =>
    unfold min_by_price
    rw [h r, h a]
    split
    · exact ih r
    · exact ih a

/-- C3 amended: find_alternative_components changes no field other than the
Amount and Cost keys of the records it selects: every record of the original
catalog keeps its identifier, similarity index, price, melting point and
availability text, and records never selected are entirely unchanged.
(filter_data performs no write at all: it only reads the store and returns a
sub-list of references.) -/
theorem selector_frame_amended : ∀ (targets : List Component) (store s2 : List Record)
    (out : List Nat) (dataRefs : List Nat),
    find_alternative_components dataRefs targets store = .ok (s2, out) →
    (∀ i, same_core (readRef s2 i) (readRef store i)) ∧
    (∀ i, i ∉ out → readRef s2 i = readRef store i) := by
  intro targets
  induction targets with
  | nil =>
    intro store s2 out dataRefs h
    simp only [find_alternative_components, Except.ok.injEq, Prod.mk.injEq] at h
    obtain ⟨h1, h2⟩ := h
    subst h1
    subst h2
    exact ⟨fun i => same_core_refl _, fun i _ => rfl⟩
  | cons t ts ih =>
    intro store s2 out dataRefs h
    unfold find_alternative_components at h
    cases halts : dataRefs.filter
        (fun r => decide ((readRef store r).similarityIndex = t.similarity_index)) with
    | nil => rw [halts] at h; exact absurd h (by simp)
    | cons a rest =>
      rw [halts] at h
      dsimp only at h
      split at h
      · exact absurd h (by simp)
      · rename_i s2x refs heq
        simp only [Except.ok.injEq, Prod.mk.injEq] at h
        obtain ⟨hs, ho⟩ := h
        subst hs
        subst ho
        obtain ⟨ihc, ihu⟩ := ih _ s2x refs dataRefs heq
        constructor
        · intro i
          exact same_core_trans (ihc i)
            (same_core_update_read store (min_by_price store a rest) _ _ i)
        · intro i hi
          have hi1 : ¬ i = min_by_price store a rest := by
            intro hh
            exact hi (by rw [hh]; exact List.mem_cons_self _ _)
          have hi2 : i ∉ refs := fun hh => hi (List.mem_cons_of_mem _ hh)
          rw [ihu i hi2, readRef_set_of_ne (fun hh => hi1 hh.symm)]

/-- C3 counterexample: running the filter then the selector on a one-record
catalog leaves record 0 of the original catalog with new Amount and Cost
fields, so the claim that no field of any original record is added or
overwritten is false. -/
theorem selector_mutates_catalog_cex :
    filter_data [c3_rec] 200 ("China".toList) [0] = .ok [0] ∧
    find_alternative_components [0] [{ similarity_index := "54".toList, amount := 1 }] [c3_rec]
      = .ok ([{ c3_rec with amount := some 1, cost := some 1 }], [0]) ∧
    ¬ ({ c3_rec with amount := some 1, cost := some 1 } = c3_rec) := by
  refine ⟨by decide, ?_, by decide⟩
  simp +decide [find_alternative_components, min_by_price, readRef, c3_rec]

/-- Witness for selector_frame_amended: on the two-record store the selector
run for class 54 keeps every core field of the selected record 0 and leaves
the unselected record 1 entirely unchanged. -/
theorem selector_frame_amended_witness :
    same_core (readRef c3w_res 0) (readRef c3w_store 0) ∧
    readRef c3w_res 1 = readRef c3w_store 1 := by
  have hok : find_alternative_components [0, 1]
      [{ similarity_index := "54".toList, amount := 1 }] c3w_store = .ok (c3w_res, [0]) := by
    simp +decide [find_alternative_components, min_by_price, readRef, c3w_store, c3w_res,
      c3_rec, c3_other]
  have h := selector_frame_amended [{ similarity_index := "54".toList, amount := 1 }]
    c3w_store c3w_res [0] [0, 1] hok
  exact ⟨h.1 0, h.2 1 (by decide)⟩

/-- C10: when two targets of one request carry the same similarity class (and
hence resolve to the same catalog record), the selector appends the same
record reference twice, and after the call that single record carries the
amount and cost written for the later target, so the earlier target's
fraction is no longer readable from the returned recipe. The hypothesis that
the searched references are in range always holds for the program, which
searches the indices of the loaded list. -/
theorem selector_aliasing (store : List Record) (dataRefs : List Nat)
    (t1 t2 : Component) (hcls : t1.similarity_index = t2.similarity_index)
    (hval : ∀ r ∈ dataRefs, r < store.length)
    (s2 : List Record) (out : List Nat)
    (hok : find_alternative_components dataRefs [t1, t2] store = .ok (s2, out)) :
    ∃ r, out = [r, r] ∧
      (readRef s2 r).amount = some t2.amount ∧
      (readRef s2 r).cost = some ((readRef s2 r).price * t2.amount) ∧
      (¬ t1.amount = t2.amount → ¬ (readRef s2 r).amount = some t1.amount) := by
  unfold find_alternative_components at hok
  cases halts : dataRefs.filter
      (fun r => decide ((readRef store r).similarityIndex = t1.similarity_index)) with
  | nil => rw [halts] at hok; exact absurd hok (by simp)
  | cons a rest =>
    rw [halts] at hok
    dsimp only at hok
    set ch := min_by_price store a rest with hch
    set store1 := store.set ch { readRef store ch with amount := some t1.amount, cost := some ((readRef store ch).price * t1.amount) } with hstore1
    have hsim : ∀ x, (readRef store1 x).similarityIndex = (readRef store x).similarityIndex :=
      fun x => (same_core_update_read store ch _ _ x).2.1
    have hprice : ∀ x, (readRef store1 x).price = (readRef store x).price :=
      fun x => (same_core_update_read store ch _ _ x).2.2.1
    have hfilter2 : dataRefs.filter
        (fun r => decide ((readRef store1 r).similarityIndex = t2.similarity_index))
        = a :: rest := by
      rw [← halts]
      apply List.filter_congr
      intro x hx
      rw [hsim x, hcls]
    have hmin2 : min_by_price store1 a rest = ch := by
      rw [min_by_price_congr hprice, ← hch]
    have hchmem : ch ∈ dataRefs := by
      have h1 : ch ∈ a :: rest := by
        rw [hch]
        exact min_by_price_mem store a rest
      rw [← halts] at h1
      exact List.mem_of_mem_filter h1
    have hchlt : ch < store1.length := by
      rw [hstore1, List.length_set]
      exact hval ch hchmem
    set upd2 := { readRef store1 ch with amount := some t2.amount, cost := some ((readRef store1 ch).price * t2.amount) } with hupd2
    have hstep2 : find_alternative_components dataRefs [t2] store1
        = .ok (store1.set ch upd2, [ch]) := by
      unfold find_alternative_components
      rw [hfilter2]
      dsimp only
      rw [hmin2]
      rfl
    rw [hstep2] at hok
    dsimp only at hok
    simp only [Except.ok.injEq, Prod.mk.injEq] at hok
    obtain ⟨hs, ho⟩ := hok
    subst hs
    subst ho
    refine ⟨ch, rfl, ?_, ?_, ?_⟩
    · rw [readRef_set_self hchlt]
    · rw [readRef_set_self hchlt]
    · intro hne heq
      rw [readRef_set_self hchlt] at heq
      injection heq with heq
      exact hne heq.symm

/-- Witness for selector_aliasing: two targets of class 54 with fractions 1
and one half both resolve to record 0; after the call the record carries the
second fraction and its cost. -/
theorem selector_aliasing_witness :
    ∃ r, ([0, 0] : List Nat) = [r, r] ∧
      (readRef c10_res r).amount = some ((1 : ℚ) / 2) ∧
      (readRef c10_res r).cost = some ((readRef c10_res r).price * ((1 : ℚ) / 2)) ∧
      (¬ (1 : ℚ) = 1 / 2 → ¬ (readRef c10_res r).amount = some (1 : ℚ)) := by
  have hok : find_alternative_components [0]
      [{ similarity_index := "54".toList, amount := 1 },
       { similarity_index := "54".toList, amount := 1 / 2 }] c10_store
      = .ok (c10_res, [0, 0]) := by
    simp +decide [find_alternative_components, min_by_price, readRef, c10_store, c10_res, c3_rec]
  exact selector_aliasing c10_store [0]
    { similarity_index := "54".toList, amount := 1 }
    { similarity_index := "54".toList, amount := 1 / 2 }
    rfl (by decide) c10_res [0, 0] hok

/-- C1: the service wires RecipeOptimizer with the full loaded catalog and
find_alternative_components searches self.data, so the selector draws
candidates from the full loaded catalog, not from the filtered one: on this
catalog the filter keeps only reference 1, yet the selector run over the
optimizer's data picks reference 0, a record the filter excluded (its melting
point 100 is below the 200 threshold). The pipeline as written cannot even
reach this point: optimize_recipe passes filtered_data as an extra positional
argument to a method accepting only target_components, a TypeError. -/
theorem selector_searches_full_catalog :
    filter_data c1_store 200 ("China".toList) [0, 1] = .ok [1] ∧
    find_alternative_components [0, 1]
        [{ similarity_index := "54".toList, amount := 1 }] c1_store
      = .ok ([{ c1_cheap_low_mp with amount := some 1, cost := some 1 },
              c1_costly_high_mp], [0]) ∧
    (0 : Nat) ∉ ([1] : List Nat) := by
  refine ⟨by decide, ?_, by decide⟩
  simp +decide [find_alternative_components, min_by_price, readRef, c1_store,
    c1_cheap_low_mp, c1_costly_high_mp]

/-- C2: the service selector embedded from util.py fails with the
404 NoAlternativeError naming the missing class 999, but the standalone
pipeline's selector does not: its no-alternative branch builds a set
comprehension and then crashes with a TypeError when it assigns the Amount
key into that set, so the standalone path never raises the NoAlternativeError
the claim requires. -/
theorem standalone_selector_type_error :
    find_alternative_components [0]
        [{ similarity_index := "999".toList, amount := 1 }] [c3_rec]
      = .error (.noAlternative ("999".toList)) ∧
    find_alternative_components_rpo [0]
        [{ similarity_index := "999".toList, amount := 1 }] [c3_rec]
      = .error .typeErr ∧
    Err.typeErr ≠ Err.noAlternative ("999".toList) := by
  refine ⟨by decide, by decide, by decide⟩

end RecipeOpt
